import Mathlib

/-!
Verification of the blockrtc peer-session protocol and relay directory.

The relay side (namespace Relay) embeds the socket handlers of
src/server/server.js.  The `connectedUsers` JS Map (socket id to user id,
iterated in insertion order) is modelled as an association list with
nodup keys; `Map.delete` during iteration is equivalent to filtering, and
`Map.set` updates in place when the key exists, else appends.  The
handlers' socket emissions are returned as explicit event lists; their
console logging has no observable effect and is not modelled.

The client side (namespace RTC) embeds the WebRTCManager class of
src/utils/webrtc.ts.  Browser negotiation primitives (description and
candidate application on the RTCPeerConnection, data-channel creation)
are modelled as deterministic state updates that succeed, so the
catch-all blocks wrapping them in the source are unreachable and the
corresponding methods are embedded as total functions; media acquisition
(getUserMedia), whose failure path the source propagates to the caller
by rethrowing, is modelled as an environment flag and an Except result.
Socket emissions are returned as an explicit event list.
-/

namespace Relay

abbrev SocketId := String
abbrev UserId := String

/-- The `connectedUsers` JS Map: socket id to user id, in insertion order. -/
abbrev Directory := List (SocketId × UserId)

/-- A JS Map never holds two entries with the same key. -/
def keysNodup (m : Directory) : Prop :=
  (m.map Prod.fst).Nodup

/-- JS `Map.set`: update in place when the key is present, else append. -/
def mapSet (m : Directory) (k : SocketId) (v : UserId) : Directory :=
  if k ∈ m.map Prod.fst then
    m.map (fun p => if p.1 = k then (k, v) else p)
  else m ++ [(k, v)]

/-- The eviction loop of the join handler (server.js:175-180): delete every
entry whose value is `uid` but whose key differs from `sid`. -/
def evictUser (m : Directory) (sid : SocketId) (uid : UserId) : Directory :=
  m.filter (fun p => !(p.2 == uid && !(p.1 == sid)))

/-- The directory update of the join handler (server.js:171-199): evict
stale connections for the user, then map the socket to the user. -/
def handleJoin (m : Directory) (sid : SocketId) (uid : UserId) : Directory :=
  mapSet (evictUser m sid uid) sid uid

/-- The lookup pattern used by every forwarding handler:
first entry whose value is the target user id (server.js:205-206). -/
def resolve (m : Directory) (uid : UserId) : Option SocketId :=
  (m.find? (fun p => p.2 == uid)).map Prod.fst

/-- All directory entries for one user id. -/
def valueEntries (m : Directory) (uid : UserId) : Directory :=
  m.filter (fun p => p.2 == uid)

/-- JS `Map.delete` on disconnect (server.js:410-417). -/
def handleDisconnect (m : Directory) (sid : SocketId) : Directory :=
  m.filter (fun p => !(p.1 == sid))

/-- A chat message as handled by the `sendMessage` socket event. -/
structure ChatMessage where
  sender : UserId
  receiver : UserId
  content : String
deriving DecidableEq

/-- A socket.io emission performed by the relay toward one socket. -/
inductive ServerEmit
  | receiveMessage (sid : SocketId) (msg : ChatMessage)
  | webrtcOffer (sid : SocketId) (offer : String) (sender : UserId)
deriving DecidableEq

/-- The `sendMessage` handler (server.js:238-253): deliver to the
resolved receiver socket; when the receiver is absent, only log
server-side and emit nothing. -/
def handleSendMessage (m : Directory) (msg : ChatMessage) : List ServerEmit :=
  match resolve m msg.receiver with
  | some sid => [ServerEmit.receiveMessage sid msg]
  | none => []

/-- The `webrtc-offer` handler (server.js:202-217): forward the offer to
the resolved target socket; when the target is absent, only log
server-side and emit nothing. -/
def handleWebrtcOffer (m : Directory) (offer : String) (sender target : UserId) :
    List ServerEmit :=
  match resolve m target with
  | some sid => [ServerEmit.webrtcOffer sid offer sender]
  | none => []

end Relay

namespace RTC

/-- An application message (P2PMessage, webrtc.ts:2-8). -/
structure P2PMessage where
  id : String
  type : String
  content : String
  timestamp : Nat
  sender : String
deriving DecidableEq

inductive DescType
  | offer
  | answer
deriving DecidableEq

/-- An RTCSessionDescription: its type plus the sdp payload. -/
structure SessionDesc where
  descType : DescType
  sdp : String
deriving DecidableEq

abbrev Candidate := String

/-- The negotiation-relevant state of an RTCPeerConnection. -/
structure PeerConn where
  signalingState : String
  localDescription : Option SessionDesc
  remoteDescription : Option SessionDesc
  addedCandidates : List Candidate
  tracks : List String
deriving DecidableEq

/-- A fresh RTCPeerConnection as built by setupPeerConnection
(webrtc.ts:29-68). -/
def newPeerConn : PeerConn :=
  { signalingState := "stable", localDescription := none,
    remoteDescription := none, addedCandidates := [], tracks := [] }

/-- RTCPeerConnection.setLocalDescription: store the description and move
the signaling state as the WebRTC state machine prescribes. -/
def PeerConn.setLocalDescription (pc : PeerConn) (d : SessionDesc) : PeerConn :=
  { pc with localDescription := some d,
            signalingState :=
              match d.descType with
              | DescType.offer => "have-local-offer"
              | DescType.answer => "stable" }

/-- RTCPeerConnection.setRemoteDescription. -/
def PeerConn.setRemoteDescription (pc : PeerConn) (d : SessionDesc) : PeerConn :=
  { pc with remoteDescription := some d,
            signalingState :=
              match d.descType with
              | DescType.offer => "have-remote-offer"
              | DescType.answer => "stable" }

/-- RTCPeerConnection.addIceCandidate: apply one candidate. -/
def PeerConn.addIceCandidate (pc : PeerConn) (c : Candidate) : PeerConn :=
  { pc with addedCandidates := pc.addedCandidates ++ [c] }

/-- RTCPeerConnection.addTrack. -/
def PeerConn.addTrack (pc : PeerConn) (t : String) : PeerConn :=
  { pc with tracks := pc.tracks ++ [t] }

/-- The data channel: its readyState string plus the messages sent over it. -/
structure DataChannel where
  readyState : String
  sentData : List P2PMessage
deriving DecidableEq

/-- A local media stream acquired by getUserMedia; audio is always
requested, video on demand (webrtc.ts:265-268). -/
structure MediaStream where
  video : Bool
deriving DecidableEq

def MediaStream.getTracks (s : MediaStream) : List String :=
  "audio" :: (if s.video then ["video"] else [])

/-- Determinate results of the browser primitives the manager calls. -/
structure Env where
  offerSdp : String
  answerSdp : String
  mediaOk : Bool
deriving DecidableEq

/-- RTCPeerConnection.createOffer. -/
def createOffer (env : Env) : SessionDesc :=
  { descType := DescType.offer, sdp := env.offerSdp }

/-- RTCPeerConnection.createAnswer. -/
def createAnswer (env : Env) : SessionDesc :=
  { descType := DescType.answer, sdp := env.answerSdp }

/-- A socket emission performed by the manager. -/
inductive Emit
  | webrtcOffer (offer : SessionDesc) (target sender : String)
  | webrtcAnswer (answer : SessionDesc) (target sender : String)
  | webrtcCallOffer (offer : SessionDesc) (target sender : String) (hasVideo : Bool)
deriving DecidableEq

/-- The WebRTCManager fields (webrtc.ts:10-21); the callbacks and the
socket handle are outward references holding no negotiation state. -/
structure Manager where
  peerConnection : Option PeerConn
  dataChannel : Option DataChannel
  localStream : Option MediaStream
  localAddress : String
  remoteAddress : String
  isInitiator : Bool
  connectionState : String
  pendingCandidates : List Candidate
deriving DecidableEq

/-- The constructor (webrtc.ts:23-27): store the local address and build
a fresh peer connection. -/
def mkManager (localAddress : String) : Manager :=
  { peerConnection := some newPeerConn, dataChannel := none, localStream := none,
    localAddress := localAddress, remoteAddress := "", isInitiator := false,
    connectionState := "new", pendingCandidates := [] }

/-- initiateConnection (webrtc.ts:95-138): bail out when the peer
connection is gone or the same peer is already connecting/connected,
else create a data channel, set a local offer, emit it, and mark the
manager connecting. -/
def initiateConnection (env : Env) (m : Manager) (remoteAddress : String) :
    Manager × List Emit :=
  match m.peerConnection with
  | none => (m, [])
  | some pc =>
    if m.remoteAddress = remoteAddress ∧
        (m.connectionState = "connected" ∨ m.connectionState = "connecting") then
      (m, [])
    else
      let offer := createOffer env
      ({ m with
          remoteAddress := remoteAddress,
          isInitiator := true,
          dataChannel := some { readyState := "connecting", sentData := [] },
          peerConnection := some (pc.setLocalDescription offer),
          connectionState := "connecting" },
       [Emit.webrtcOffer offer remoteAddress m.localAddress])

/-- processPendingCandidates (webrtc.ts:238-251): apply the queued
candidates in order (the source catches and logs per-candidate errors;
candidate application is modelled as succeeding). -/
def processPendingCandidates (pc : PeerConn) (cs : List Candidate) : PeerConn :=
  cs.foldl PeerConn.addIceCandidate pc

/-- handleOffer (webrtc.ts:141-183): bail out when the peer connection is
gone; discard the offer when the signaling state is neither stable nor
have-local-offer; else apply the remote offer, set a local answer, drain
the candidate queue, emit the answer, and mark the manager connecting. -/
def handleOffer (env : Env) (m : Manager) (offer : SessionDesc)
    (senderAddress : String) : Manager × List Emit :=
  match m.peerConnection with
  | none => (m, [])
  | some pc =>
    if pc.signalingState ≠ "stable" ∧ pc.signalingState ≠ "have-local-offer" then
      (m, [])
    else
      let answer := createAnswer env
      let pc1 := (pc.setRemoteDescription offer).setLocalDescription answer
      ({ m with
          remoteAddress := senderAddress,
          isInitiator := false,
          peerConnection := some (processPendingCandidates pc1 m.pendingCandidates),
          pendingCandidates := [],
          connectionState := "connecting" },
       [Emit.webrtcAnswer answer senderAddress m.localAddress])

/-- handleAnswer (webrtc.ts:186-213): bail out when the peer connection
is gone; discard the answer unless the signaling state is
have-local-offer; else apply the remote answer, drain the candidate
queue, and mark the manager connecting. -/
def handleAnswer (m : Manager) (answer : SessionDesc) : Manager × List Emit :=
  match m.peerConnection with
  | none => (m, [])
  | some pc =>
    if pc.signalingState ≠ "have-local-offer" then
      (m, [])
    else
      ({ m with
          peerConnection := some (processPendingCandidates
            (pc.setRemoteDescription answer) m.pendingCandidates),
          pendingCandidates := [],
          connectionState := "connecting" },
       [])

/-- handleIceCandidate (webrtc.ts:216-235): bail out when the peer
connection is gone; queue the candidate while no remote description is
set; else apply it. -/
def handleIceCandidate (m : Manager) (c : Candidate) : Manager × List Emit :=
  match m.peerConnection with
  | none => (m, [])
  | some pc =>
    if pc.remoteDescription = none then
      ({ m with pendingCandidates := m.pendingCandidates ++ [c] }, [])
    else
      ({ m with peerConnection := some (pc.addIceCandidate c) }, [])

/-- sendMessage (webrtc.ts:254-260): send over the data channel and
return true only when the channel exists and is open; else return false
and change nothing. -/
def sendMessage (m : Manager) (msg : P2PMessage) : Bool × Manager :=
  match m.dataChannel with
  | some dc =>
    if dc.readyState = "open" then
      (true, { m with dataChannel := some { dc with sentData := dc.sentData ++ [msg] } })
    else (false, m)
  | none => (false, m)

/-- startCall (webrtc.ts:263-290): acquire media, attach its tracks,
set a local media offer and emit a call-offer.  The catch block logs and
rethrows, so a failure escapes to the caller (modelled with Except) and
the manager keeps the mutations performed before the failing step; when
getUserMedia itself fails nothing has mutated yet. -/
def startCall (env : Env) (m : Manager) (video : Bool) :
    Except String (List Emit) × Manager :=
  if env.mediaOk then
    let stream : MediaStream := { video := video }
    let m1 := { m with localStream := some stream }
    match m1.peerConnection with
    | none => (Except.error "TypeError: peerConnection is null", m1)
    | some pc =>
      let pc1 := stream.getTracks.foldl PeerConn.addTrack pc
      let offer := createOffer env
      (Except.ok [Emit.webrtcCallOffer offer m.remoteAddress m.localAddress video],
       { m1 with peerConnection := some (pc1.setLocalDescription offer) })
  else
    (Except.error "Failed to start call", m)

/-- getConnectionState (webrtc.ts:303-308): connected when an open data
channel exists, else the stored connection state. -/
def getConnectionState (m : Manager) : String :=
  match m.dataChannel with
  | some dc => if dc.readyState = "open" then "connected" else m.connectionState
  | none => m.connectionState

/-- close (webrtc.ts:311-331): close and null the data channel, stop and
null the media tracks, close and null the peer connection, mark the
manager closed and clear the candidate queue.  Every release step is
infallible. -/
def close (m : Manager) : Manager :=
  { m with dataChannel := none, localStream := none, peerConnection := none,
           connectionState := "closed", pendingCandidates := [] }

/-- reset (webrtc.ts:334-339): close, rebuild the peer connection, and
return to the new state. -/
def reset (m : Manager) : Manager :=
  { close m with peerConnection := some newPeerConn, connectionState := "new" }

/-- Browser event: the data channel readyState changes (its
onopen/onclose handlers only fire outward callbacks). -/
def dcStateChange (m : Manager) (s : String) : Manager :=
  match m.dataChannel with
  | some dc => { m with dataChannel := some { dc with readyState := s } }
  | none => m

/-- Browser event ondatachannel (webrtc.ts:58-61): adopt the incoming
channel via setupDataChannel. -/
def onDataChannelEvent (m : Manager) (ch : DataChannel) : Manager :=
  { m with dataChannel := some ch }

/-- Manager states reachable from the constructor through the manager's
methods and the browser events. -/
inductive Reachable : Manager → Prop
  | init (a : String) : Reachable (mkManager a)
  | initiate (env : Env) (r : String) {m : Manager} :
      Reachable m → Reachable (initiateConnection env m r).1
  | offer (env : Env) (o : SessionDesc) (s : String) {m : Manager} :
      Reachable m → Reachable (handleOffer env m o s).1
  | answer (a : SessionDesc) {m : Manager} :
      Reachable m → Reachable (handleAnswer m a).1
  | ice (c : Candidate) {m : Manager} :
      Reachable m → Reachable (handleIceCandidate m c).1
  | send (msg : P2PMessage) {m : Manager} :
      Reachable m → Reachable (sendMessage m msg).2
  | call (env : Env) (v : Bool) {m : Manager} :
      Reachable m → Reachable (startCall env m v).2
  | closeStep {m : Manager} : Reachable m → Reachable (close m)
  | resetStep {m : Manager} : Reachable m → Reachable (reset m)
  | dcEvent (s : String) {m : Manager} : Reachable m → Reachable (dcStateChange m s)
  | dcIncoming (ch : DataChannel) {m : Manager} :
      Reachable m → Reachable (onDataChannelEvent m ch)

end RTC

/-- Concrete environment with media available. -/
def env0 : RTC.Env :=
  { offerSdp := "offer-sdp", answerSdp := "answer-sdp", mediaOk := true }

/-- Concrete environment where getUserMedia fails. -/
def envNoMedia : RTC.Env :=
  { offerSdp := "offer-sdp", answerSdp := "answer-sdp", mediaOk := false }

/-- A freshly constructed manager. -/
def mgrNew : RTC.Manager := RTC.mkManager "alice"

/-- An open data channel holding no sent messages. -/
def dcOpen0 : RTC.DataChannel := { readyState := "open", sentData := [] }

/-- A manager whose data channel is open. -/
def mgrOpen : RTC.Manager := { RTC.mkManager "alice" with dataChannel := some dcOpen0 }

/-- A manager mid-negotiation toward bob. -/
def mgrConnecting : RTC.Manager :=
  { RTC.mkManager "alice" with remoteAddress := "bob", connectionState := "connecting" }

/-- A manager holding one queued candidate. -/
def mgrPending : RTC.Manager :=
  { RTC.mkManager "alice" with pendingCandidates := ["cand1"] }

/-- A peer connection that has applied a remote offer. -/
def pcHaveRemote : RTC.PeerConn :=
  { RTC.newPeerConn with signalingState := "have-remote-offer" }

/-- A manager whose peer connection has applied a remote offer. -/
def mgrHaveRemote : RTC.Manager :=
  { RTC.mkManager "alice" with peerConnection := some pcHaveRemote }

/-- A sample application message. -/
def msg0 : RTC.P2PMessage :=
  { id := "1", type := "text", content := "hi", timestamp := 0, sender := "alice" }

/-- The directory after register("B", "e") then deregister("e"). -/
def dirB : Relay.Directory :=
  Relay.handleDisconnect (Relay.handleJoin [] "e" "B") "e"

/-- A message from A targeted at B. -/
def chatMsg0 : Relay.ChatMessage := { sender := "A", receiver := "B", content := "x" }

lemma mem_evictUser {m : Relay.Directory} {sid : Relay.SocketId} {uid : Relay.UserId}
    {p : Relay.SocketId × Relay.UserId}
    (hp : p ∈ Relay.evictUser m sid uid) : p ∈ m ∧ (p.2 = uid → p.1 = sid) := by
  unfold Relay.evictUser at hp
  rw [List.mem_filter] at hp
  refine ⟨hp.1, fun hv => ?_⟩
  have hb := hp.2
  simp only [Bool.not_eq_true', Bool.and_eq_false_iff] at hb
  rcases hb with hb | hb
  · exact absurd hv (by simpa using hb)
  · simpa using hb

lemma keysNodup_filter (m : Relay.Directory) (q : Relay.SocketId × Relay.UserId → Bool)
    (hk : Relay.keysNodup m) : Relay.keysNodup (m.filter q) :=
  hk.sublist ((List.filter_sublist m).map Prod.fst)

lemma keysNodup_evictUser (m : Relay.Directory) (sid : Relay.SocketId)
    (uid : Relay.UserId) (hk : Relay.keysNodup m) :
    Relay.keysNodup (Relay.evictUser m sid uid) :=
  keysNodup_filter m _ hk

lemma valueEntries_map_update (sid : Relay.SocketId) (uid : Relay.UserId) :
    ∀ (l : Relay.Directory), Relay.keysNodup l → (∀ p ∈ l, p.2 = uid → p.1 = sid) →
      sid ∈ l.map Prod.fst →
      Relay.valueEntries (l.map (fun p => if p.1 = sid then (sid, uid) else p)) uid
        = [(sid, uid)] := by
  intro l
  induction l with
  | nil => intro _ _ hmem; simp at hmem
  | cons a l ih =>
    intro hk h hmem
    have hk' : a.1 ∉ l.map Prod.fst ∧ Relay.keysNodup l := by
      unfold Relay.keysNodup at hk
      simpa [List.nodup_cons] using hk
    by_cases ha : a.1 = sid
    · have hfa : (if a.1 = sid then (sid, uid) else a) = (sid, uid) := if_pos ha
      have htail :
          Relay.valueEntries (l.map (fun p => if p.1 = sid then (sid, uid) else p)) uid
            = [] := by
        unfold Relay.valueEntries
        rw [List.filter_eq_nil_iff]
        intro q hq
        rw [List.mem_map] at hq
        obtain ⟨r, hr, hrq⟩ := hq
        have hrsid : r.1 ≠ sid := by
          intro hcontra
          exact hk'.1 (ha ▸ hcontra ▸ List.mem_map_of_mem Prod.fst hr)
        have hq' : q = r := by rw [← hrq, if_neg hrsid]
        have hrval : r.2 ≠ uid := fun hv => hrsid (h r (List.mem_cons_of_mem a hr) hv)
        subst hq'
        simpa using hrval
      unfold Relay.valueEntries at htail ⊢
      rw [List.map_cons, hfa, List.filter_cons_of_pos (by simp), htail]
    · have hmem' : sid ∈ l.map Prod.fst := by
        rcases List.mem_map.mp hmem with ⟨r, hr, hrq⟩
        rcases List.mem_cons.mp hr with hr | hr
        · exact absurd (hr ▸ hrq) ha
        · exact hrq ▸ List.mem_map_of_mem Prod.fst hr
      have hfa : (if a.1 = sid then (sid, uid) else a) = a := if_neg ha
      have haval : a.2 ≠ uid := fun hv => ha (h a (List.mem_cons_self a l) hv)
      unfold Relay.valueEntries
      rw [List.map_cons, hfa, List.filter_cons_of_neg (by simpa using haval)]
      exact ih hk'.2 (fun p hp => h p (List.mem_cons_of_mem a hp)) hmem'

lemma valueEntries_mapSet (l : Relay.Directory) (sid : Relay.SocketId)
    (uid : Relay.UserId) (hk : Relay.keysNodup l)
    (h : ∀ p ∈ l, p.2 = uid → p.1 = sid) :
    Relay.valueEntries (Relay.mapSet l sid uid) uid = [(sid, uid)] := by
  unfold Relay.mapSet
  by_cases hmem : sid ∈ l.map Prod.fst
  · rw [if_pos hmem]
    exact valueEntries_map_update sid uid l hk h hmem
  · rw [if_neg hmem]
    have hnone : Relay.valueEntries l uid = [] := by
      unfold Relay.valueEntries
      rw [List.filter_eq_nil_iff]
      intro p hp
      have : p.2 ≠ uid := by
        intro hv
        exact hmem ((h p hp hv) ▸ List.mem_map_of_mem Prod.fst hp)
      simpa using this
    unfold Relay.valueEntries at hnone ⊢
    rw [List.filter_append, hnone, List.filter_cons_of_pos (by simp)]
    rfl

lemma valueEntries_handleJoin (m : Relay.Directory) (sid : Relay.SocketId)
    (uid : Relay.UserId) (hk : Relay.keysNodup m) :
    Relay.valueEntries (Relay.handleJoin m sid uid) uid = [(sid, uid)] := by
  unfold Relay.handleJoin
  exact valueEntries_mapSet _ sid uid (keysNodup_evictUser m sid uid hk)
    (fun p hp => (mem_evictUser hp).2)

lemma keysNodup_mapSet (l : Relay.Directory) (k : Relay.SocketId) (v : Relay.UserId)
    (hk : Relay.keysNodup l) : Relay.keysNodup (Relay.mapSet l k v) := by
  unfold Relay.mapSet
  by_cases hmem : k ∈ l.map Prod.fst
  · rw [if_pos hmem]
    unfold Relay.keysNodup
    have : (l.map (fun p => if p.1 = k then (k, v) else p)).map Prod.fst
        = l.map Prod.fst := by
      rw [List.map_map]
      refine List.map_congr_left (fun p _ => ?_)
      by_cases hp : p.1 = k
      · simp [hp]
      · simp [hp]
    rw [this]
    exact hk
  · rw [if_neg hmem]
    unfold Relay.keysNodup
    rw [List.map_append, List.nodup_append]
    refine ⟨hk, by simp, ?_⟩
    intro a ha hb
    simp only [List.map_cons, List.map_nil, List.mem_singleton] at hb
    exact hmem (hb ▸ ha)

lemma keysNodup_handleJoin (m : Relay.Directory) (sid : Relay.SocketId)
    (uid : Relay.UserId) (hk : Relay.keysNodup m) :
    Relay.keysNodup (Relay.handleJoin m sid uid) :=
  keysNodup_mapSet _ sid uid (keysNodup_evictUser m sid uid hk)

lemma find?_of_filter_eq_singleton {α : Type} (p : α → Bool) :
    ∀ (l : List α) (x : α), l.filter p = [x] → l.find? p = some x := by
  intro l
  induction l with
  | nil => intro x h; simp at h
  | cons a l ih =>
    intro x h
    by_cases hpa : p a = true
    · rw [List.filter_cons_of_pos hpa] at h
      have hax : a = x := (List.cons_eq_cons.mp h).1
      rw [List.find?_cons_of_pos l hpa, hax]
    · rw [List.filter_cons_of_neg (by simpa using hpa)] at h
      rw [List.find?_cons_of_neg l (by simpa using hpa)]
      exact ih x h

/-- Claim C1: after register(A, e1) then register(A, e2) with e1 distinct
from e2, the directory resolves A to e2 and holds exactly one entry for
A; the first registration also left exactly one entry for A, and the
eviction phase of the second registration removed the stale e1 entry
before the new entry was inserted, so no observable state holds two
entries for A. -/
theorem join_evicts_stale_entry (m : Relay.Directory) (A : Relay.UserId)
    (e1 e2 : Relay.SocketId) (hk : Relay.keysNodup m) (hne : e1 ≠ e2) :
    Relay.resolve (Relay.handleJoin (Relay.handleJoin m e1 A) e2 A) A = some e2 ∧
    (Relay.valueEntries (Relay.handleJoin (Relay.handleJoin m e1 A) e2 A) A).length = 1 ∧
    (Relay.valueEntries (Relay.handleJoin m e1 A) A).length = 1 ∧
    Relay.valueEntries (Relay.evictUser (Relay.handleJoin m e1 A) e2 A) A = [] := by
  have hk1 : Relay.keysNodup (Relay.handleJoin m e1 A) :=
    keysNodup_handleJoin m e1 A hk
  have h1 : Relay.valueEntries (Relay.handleJoin m e1 A) A = [(e1, A)] :=
    valueEntries_handleJoin m e1 A hk
  have h2 : Relay.valueEntries (Relay.handleJoin (Relay.handleJoin m e1 A) e2 A) A
      = [(e2, A)] :=
    valueEntries_handleJoin _ e2 A hk1
  refine ⟨?_, ?_, ?_, ?_⟩
  · unfold Relay.resolve
    rw [find?_of_filter_eq_singleton _ _ _ h2]
    rfl
  · rw [h2]; rfl
  · rw [h1]; rfl
  · unfold Relay.valueEntries
    rw [List.filter_eq_nil_iff]
    intro p hp
    obtain ⟨hpm, himp⟩ := mem_evictUser hp
    intro hcontra
    rw [beq_iff_eq] at hcontra
    have hp1 : p ∈ Relay.valueEntries (Relay.handleJoin m e1 A) A := by
      unfold Relay.valueEntries
      rw [List.mem_filter]
      exact ⟨hpm, by simpa using hcontra⟩
    rw [h1, List.mem_singleton] at hp1
    have hpe2 : p.1 = e2 := himp hcontra
    rw [hp1] at hpe2
    exact hne hpe2

/-- Witness for C1 at a concrete directory. -/
theorem join_evicts_stale_entry_witness :
    Relay.resolve (Relay.handleJoin (Relay.handleJoin [] "e1" "A") "e2" "A") "A"
      = some "e2" := by
  have h := join_evicts_stale_entry [] "A" "e1" "e2" (by simp [Relay.keysNodup])
    (by decide)
  exact h.1

lemma processPendingCandidates_addedCandidates :
    ∀ (cs : List RTC.Candidate) (pc : RTC.PeerConn),
      (RTC.processPendingCandidates pc cs).addedCandidates
        = pc.addedCandidates ++ cs := by
  intro cs
  induction cs with
  | nil => intro pc; simp [RTC.processPendingCandidates]
  | cons c cs ih =>
    intro pc
    unfold RTC.processPendingCandidates at ih ⊢
    rw [List.foldl_cons, ih (pc.addIceCandidate c)]
    simp [RTC.PeerConn.addIceCandidate]

/-- Claim C2: while the remote description is not yet applied,
handleIceCandidate appends the candidate to pendingCandidates without
dropping or applying it (and, being total, throws nothing); once the
remote description is applied through handleOffer or handleAnswer, every
queued candidate is applied exactly once in arrival order and the queue
is cleared. -/
theorem candidate_queue_discipline (env : RTC.Env) (m : RTC.Manager)
    (pc : RTC.PeerConn) (c : RTC.Candidate) (offer answer : RTC.SessionDesc)
    (sender : String) (hpc : m.peerConnection = some pc) :
    (pc.remoteDescription = none →
      RTC.handleIceCandidate m c
        = ({ m with pendingCandidates := m.pendingCandidates ++ [c] }, [])) ∧
    (pc.signalingState = "stable" ∨ pc.signalingState = "have-local-offer" →
      (RTC.handleOffer env m offer sender).1.pendingCandidates = [] ∧
      ∃ pc2, (RTC.handleOffer env m offer sender).1.peerConnection = some pc2 ∧
        pc2.addedCandidates = pc.addedCandidates ++ m.pendingCandidates) ∧
    (pc.signalingState = "have-local-offer" →
      (RTC.handleAnswer m answer).1.pendingCandidates = [] ∧
      ∃ pc2, (RTC.handleAnswer m answer).1.peerConnection = some pc2 ∧
        pc2.addedCandidates = pc.addedCandidates ++ m.pendingCandidates) := by
  refine ⟨?_, ?_, ?_⟩
  · intro hrd
    simp [RTC.handleIceCandidate, hpc, hrd]
  · intro hsig
    have hcond : ¬(pc.signalingState ≠ "stable" ∧ pc.signalingState ≠ "have-local-offer") := by
      rcases hsig with hsig | hsig <;> simp [hsig]
    simp only [RTC.handleOffer, hpc]
    rw [if_neg hcond]
    refine ⟨rfl, ⟨_, rfl, ?_⟩⟩
    rw [processPendingCandidates_addedCandidates]
    simp [RTC.PeerConn.setLocalDescription, RTC.PeerConn.setRemoteDescription]
  · intro hsig
    have hcond : ¬(pc.signalingState ≠ "have-local-offer") := by simp [hsig]
    simp only [RTC.handleAnswer, hpc]
    rw [if_neg hcond]
    refine ⟨rfl, ⟨_, rfl, ?_⟩⟩
    rw [processPendingCandidates_addedCandidates]
    simp [RTC.PeerConn.setRemoteDescription]

/-- Witness for C2 at a concrete manager holding one queued candidate. -/
theorem candidate_queue_discipline_witness :
    RTC.handleIceCandidate mgrPending "cand2"
      = ({ mgrPending with pendingCandidates := ["cand1", "cand2"] }, []) ∧
    (RTC.handleOffer env0 mgrPending (RTC.createOffer env0) "bob").1.pendingCandidates
      = [] ∧
    ∃ pc2, (RTC.handleOffer env0 mgrPending (RTC.createOffer env0) "bob").1.peerConnection
        = some pc2 ∧ pc2.addedCandidates = ["cand1"] := by
  have h := candidate_queue_discipline env0 mgrPending RTC.newPeerConn "cand2"
    (RTC.createOffer env0) (RTC.createAnswer env0) "bob" rfl
  refine ⟨?_, (h.2.1 (Or.inl rfl)).1, ?_⟩
  · rw [h.1 rfl]
    rfl
  · obtain ⟨pc2, hsome, hadded⟩ := (h.2.1 (Or.inl rfl)).2
    exact ⟨pc2, hsome, hadded⟩

/-- Counterexample for C3: after register("B", "e") then deregister("e"),
forwarding a message or an offer to B emits nothing at all, so in
particular no "target offline" report reaches the sender's socket. -/
theorem forward_after_deregister_reports_nothing :
    Relay.resolve dirB "B" = none ∧
    Relay.handleSendMessage dirB chatMsg0 = [] ∧
    Relay.handleWebrtcOffer dirB "sdp" "A" "B" = [] := by
  refine ⟨by decide, by decide, by decide⟩

/-- Claim C3 as amended: a forwarded message whose target has no
directory entry is delivered to no endpoint and the relay emits nothing
back to the sender either, only logging server-side. -/
theorem forward_absent_target_drops_silently (m : Relay.Directory)
    (msg : Relay.ChatMessage) (offer : String) (s t : Relay.UserId)
    (h1 : Relay.resolve m msg.receiver = none)
    (h2 : Relay.resolve m t = none) :
    Relay.handleSendMessage m msg = [] ∧ Relay.handleWebrtcOffer m offer s t = [] := by
  unfold Relay.handleSendMessage Relay.handleWebrtcOffer
  rw [h1, h2]
  exact ⟨rfl, rfl⟩

/-- Witness for the amended C3 at the register-then-deregister directory. -/
theorem forward_absent_target_drops_silently_witness :
    Relay.handleSendMessage dirB chatMsg0 = [] :=
  (forward_absent_target_drops_silently dirB chatMsg0 "sdp" "A" "B"
    (by decide) (by decide)).1

/-- Claim C4: an offer arriving while the signaling state is neither
stable nor have-local-offer, and an answer arriving while it is not
have-local-offer, are discarded without an error and leave the manager
unchanged and emit nothing. -/
theorem incompatible_offer_answer_discarded (env : RTC.Env) (m : RTC.Manager)
    (pc : RTC.PeerConn) (offer answer : RTC.SessionDesc) (sender : String)
    (hpc : m.peerConnection = some pc) :
    (pc.signalingState ≠ "stable" → pc.signalingState ≠ "have-local-offer" →
      RTC.handleOffer env m offer sender = (m, [])) ∧
    (pc.signalingState ≠ "have-local-offer" →
      RTC.handleAnswer m answer = (m, [])) := by
  constructor
  · intro h1 h2
    simp only [RTC.handleOffer, hpc]
    rw [if_pos ⟨h1, h2⟩]
  · intro h1
    simp only [RTC.handleAnswer, hpc]
    rw [if_pos h1]

/-- Witness for C4 at a manager already holding a remote offer. -/
theorem incompatible_offer_answer_discarded_witness :
    RTC.handleOffer env0 mgrHaveRemote (RTC.createOffer env0) "bob"
      = (mgrHaveRemote, []) ∧
    RTC.handleAnswer mgrHaveRemote (RTC.createAnswer env0) = (mgrHaveRemote, []) := by
  have h := incompatible_offer_answer_discarded env0 mgrHaveRemote pcHaveRemote
    (RTC.createOffer env0) (RTC.createAnswer env0) "bob" rfl
  exact ⟨h.1 (by decide) (by decide), h.2 (by decide)⟩

/-- Claim C5: close never throws (it is total), releases the transport,
media and negotiation resources, marks the manager closed, clears the
candidate queue, and closing twice leaves the same observable state as
closing once. -/
theorem close_idempotent (m : RTC.Manager) :
    RTC.close (RTC.close m) = RTC.close m ∧
    (RTC.close m).connectionState = "closed" ∧
    (RTC.close m).pendingCandidates = [] ∧
    (RTC.close m).dataChannel = none ∧
    (RTC.close m).localStream = none ∧
    (RTC.close m).peerConnection = none :=
  ⟨rfl, rfl, rfl, rfl, rfl, rfl⟩

/-- Claim C6: sendMessage returns true exactly when the data channel
exists and reports an open readyState, in which case the message is sent
over the channel; otherwise it returns false (throwing nothing, as the
function is total) and leaves the manager unchanged, buffering nothing. -/
theorem sendMessage_only_when_open (m : RTC.Manager) (msg : RTC.P2PMessage) :
    ((RTC.sendMessage m msg).1 = true ↔
      ∃ dc, m.dataChannel = some dc ∧ dc.readyState = "open") ∧
    (∀ dc, m.dataChannel = some dc → dc.readyState = "open" →
      (RTC.sendMessage m msg).2
        = { m with dataChannel := some { dc with sentData := dc.sentData ++ [msg] } }) ∧
    ((RTC.sendMessage m msg).1 = false → (RTC.sendMessage m msg).2 = m) := by
  cases hdc : m.dataChannel with
  | none =>
    have hsend : RTC.sendMessage m msg = (false, m) := by
      simp [RTC.sendMessage, hdc]
    refine ⟨?_, ?_, ?_⟩
    · rw [hsend]; simp [hdc]
    · intro dc2 hsome _
      cases hsome
    · intro _; rw [hsend]
  | some dc =>
    by_cases hrs : dc.readyState = "open"
    · have hsend : RTC.sendMessage m msg
          = (true, { m with dataChannel := some { dc with sentData := dc.sentData ++ [msg] } }) := by
        simp [RTC.sendMessage, hdc, hrs]
      refine ⟨?_, ?_, ?_⟩
      · rw [hsend]; simp [hdc, hrs]
      · intro dc2 hsome hrs2
        have hd2 : dc = dc2 := Option.some_inj.mp hsome
        subst hd2
        rw [hsend]
      · intro hf
        rw [hsend] at hf
        simp at hf
    · have hsend : RTC.sendMessage m msg = (false, m) := by
        simp [RTC.sendMessage, hdc, hrs]
      refine ⟨?_, ?_, ?_⟩
      · rw [hsend]; simp [hdc, hrs]
      · intro dc2 hsome hrs2
        have hd2 : dc = dc2 := Option.some_inj.mp hsome
        subst hd2
        exact absurd hrs2 hrs
      · intro _; rw [hsend]

/-- Witness for C6: a manager without a channel fails the send and is
unchanged; a manager with an open channel succeeds. -/
theorem sendMessage_only_when_open_witness :
    (RTC.sendMessage mgrNew msg0).2 = mgrNew ∧
    (RTC.sendMessage mgrOpen msg0).1 = true := by
  refine ⟨(sendMessage_only_when_open mgrNew msg0).2.2 rfl, ?_⟩
  exact (sendMessage_only_when_open mgrOpen msg0).1.mpr ⟨dcOpen0, rfl, rfl⟩

/-- Claim C7: a further initiateConnection toward the remote identity the
manager is already connecting or connected to returns immediately as a
no-op: no data channel is created, nothing is emitted, all fields are
unchanged. -/
theorem initiate_idempotent_when_active (env : RTC.Env) (m : RTC.Manager)
    (remote : String) (haddr : m.remoteAddress = remote)
    (hstate : m.connectionState = "connected" ∨ m.connectionState = "connecting") :
    RTC.initiateConnection env m remote = (m, []) := by
  rcases hstate with h | h <;>
    cases hpc : m.peerConnection <;>
      simp [RTC.initiateConnection, hpc, haddr, h]

/-- Witness for C7 at a manager already connecting to bob. -/
theorem initiate_idempotent_when_active_witness :
    RTC.initiateConnection env0 mgrConnecting "bob" = (mgrConnecting, []) :=
  initiate_idempotent_when_active env0 mgrConnecting "bob" rfl (Or.inr rfl)

/-- Counterexample for C8: when getUserMedia fails, startCall surfaces
the error and emits nothing, but it does not close the session: the
manager is left fully unchanged, its peer connection alive and its state
not "closed". -/
theorem startCall_media_failure_leaves_session_open :
    (RTC.startCall envNoMedia mgrConnecting false).2 = mgrConnecting ∧
    mgrConnecting.peerConnection ≠ none ∧
    mgrConnecting.connectionState ≠ "closed" ∧
    (RTC.startCall envNoMedia mgrConnecting false).1
      = Except.error "Failed to start call" := by
  refine ⟨rfl, by decide, by decide, rfl⟩

/-- Claim C8 as amended: when startCall fails to acquire local media the
failure is surfaced to the caller as a rethrown error, the call attempt
is aborted with no call-offer emitted, and the session is left unchanged
rather than closed; on success startCall emits a call-offer and does not
change the connection state. -/
theorem startCall_spec (env : RTC.Env) (m : RTC.Manager) (pc : RTC.PeerConn)
    (video : Bool) :
    (env.mediaOk = false →
      RTC.startCall env m video = (Except.error "Failed to start call", m)) ∧
    (env.mediaOk = true → m.peerConnection = some pc →
      ∃ m2, RTC.startCall env m video
          = (Except.ok [RTC.Emit.webrtcCallOffer (RTC.createOffer env)
              m.remoteAddress m.localAddress video], m2) ∧
        m2.connectionState = m.connectionState) := by
  constructor
  · intro hmedia
    unfold RTC.startCall
    rw [if_neg (by simp [hmedia])]
  · intro hmedia hpc
    unfold RTC.startCall
    rw [if_pos hmedia]
    simp only [hpc]
    exact ⟨_, rfl, rfl⟩

/-- Witness for the amended C8: the failure path at a concrete manager,
and the success path emitting the call-offer. -/
theorem startCall_spec_witness :
    RTC.startCall envNoMedia mgrConnecting false
      = (Except.error "Failed to start call", mgrConnecting) ∧
    ∃ m2, RTC.startCall env0 mgrConnecting false
        = (Except.ok [RTC.Emit.webrtcCallOffer (RTC.createOffer env0) "bob" "alice" false],
           m2) ∧
      m2.connectionState = mgrConnecting.connectionState := by
  refine ⟨(startCall_spec envNoMedia mgrConnecting RTC.newPeerConn false).1 rfl, ?_⟩
  exact (startCall_spec env0 mgrConnecting RTC.newPeerConn false).2 rfl rfl

/-- Claim C9: after close, the peer connection is released, and each of
initiateConnection, handleOffer, handleAnswer and handleIceCandidate
detects the missing peer connection and returns early: manager
unchanged, nothing emitted, nothing thrown (the functions are total). -/
theorem closed_session_ops_are_noops (env : RTC.Env) (m : RTC.Manager)
    (remote sender : String) (offer answer : RTC.SessionDesc) (c : RTC.Candidate) :
    (RTC.close m).peerConnection = none ∧
    RTC.initiateConnection env (RTC.close m) remote = (RTC.close m, []) ∧
    RTC.handleOffer env (RTC.close m) offer sender = (RTC.close m, []) ∧
    RTC.handleAnswer (RTC.close m) answer = (RTC.close m, []) ∧
    RTC.handleIceCandidate (RTC.close m) c = (RTC.close m, []) :=
  ⟨rfl, rfl, rfl, rfl, rfl⟩

lemma connState_handleIceCandidate (m : RTC.Manager) (c : RTC.Candidate) :
    (RTC.handleIceCandidate m c).1.connectionState = m.connectionState := by
  cases hpc : m.peerConnection with
  | none => simp [RTC.handleIceCandidate, hpc]
  | some pc =>
    by_cases hrd : pc.remoteDescription = none <;>
      simp [RTC.handleIceCandidate, hpc, hrd]

lemma connState_sendMessage (m : RTC.Manager) (msg : RTC.P2PMessage) :
    (RTC.sendMessage m msg).2.connectionState = m.connectionState := by
  cases hdc : m.dataChannel with
  | none => simp [RTC.sendMessage, hdc]
  | some dc =>
    by_cases hrs : dc.readyState = "open" <;> simp [RTC.sendMessage, hdc, hrs]

lemma connState_startCall (env : RTC.Env) (m : RTC.Manager) (v : Bool) :
    (RTC.startCall env m v).2.connectionState = m.connectionState := by
  by_cases hm : env.mediaOk = true
  · cases hpc : m.peerConnection with
    | none => simp [RTC.startCall, hm, hpc]
    | some pc => simp [RTC.startCall, hm, hpc]
  · simp [RTC.startCall, hm]

lemma connState_dcStateChange (m : RTC.Manager) (s : String) :
    (RTC.dcStateChange m s).connectionState = m.connectionState := by
  cases hdc : m.dataChannel <;> simp [RTC.dcStateChange, hdc]

lemma connState_ne_initiate (env : RTC.Env) (r : String) {m : RTC.Manager}
    (h : m.connectionState ≠ "connected") :
    (RTC.initiateConnection env m r).1.connectionState ≠ "connected" := by
  cases hpc : m.peerConnection with
  | none => simpa [RTC.initiateConnection, hpc] using h
  | some pc =>
    by_cases hcond : (m.remoteAddress = r ∧
        (m.connectionState = "connected" ∨ m.connectionState = "connecting"))
    · simpa [RTC.initiateConnection, hpc, hcond] using h
    · simp only [RTC.initiateConnection, hpc]
      rw [if_neg hcond]
      exact (by decide : ("connecting" : String) ≠ "connected")

lemma connState_ne_handleOffer (env : RTC.Env) (o : RTC.SessionDesc) (s : String)
    {m : RTC.Manager} (h : m.connectionState ≠ "connected") :
    (RTC.handleOffer env m o s).1.connectionState ≠ "connected" := by
  cases hpc : m.peerConnection with
  | none => simpa [RTC.handleOffer, hpc] using h
  | some pc =>
    by_cases hcond : (pc.signalingState ≠ "stable" ∧
        pc.signalingState ≠ "have-local-offer")
    · simpa [RTC.handleOffer, hpc, hcond] using h
    · simp only [RTC.handleOffer, hpc]
      rw [if_neg hcond]
      exact (by decide : ("connecting" : String) ≠ "connected")

lemma connState_ne_handleAnswer (a : RTC.SessionDesc) {m : RTC.Manager}
    (h : m.connectionState ≠ "connected") :
    (RTC.handleAnswer m a).1.connectionState ≠ "connected" := by
  cases hpc : m.peerConnection with
  | none => simpa [RTC.handleAnswer, hpc] using h
  | some pc =>
    by_cases hcond : pc.signalingState ≠ "have-local-offer"
    · simpa [RTC.handleAnswer, hpc, hcond] using h
    · simp only [RTC.handleAnswer, hpc]
      rw [if_neg hcond]
      exact (by decide : ("connecting" : String) ≠ "connected")

lemma reachable_connState_ne {m : RTC.Manager} (h : RTC.Reachable m) :
    m.connectionState ≠ "connected" := by
  induction h with
  | init a => exact (by decide : ("new" : String) ≠ "connected")
  | initiate env r hr ih => exact connState_ne_initiate env r ih
  | offer env o s hr ih => exact connState_ne_handleOffer env o s ih
  | answer a hr ih => exact connState_ne_handleAnswer a ih
  | ice c hr ih => rw [connState_handleIceCandidate]; exact ih
  | send msg hr ih => rw [connState_sendMessage]; exact ih
  | call env v hr ih => rw [connState_startCall]; exact ih
  | closeStep hr ih => exact (by decide : ("closed" : String) ≠ "connected")
  | resetStep hr ih => exact (by decide : ("new" : String) ≠ "connected")
  | dcEvent s hr ih => rw [connState_dcStateChange]; exact ih
  | dcIncoming ch hr ih => exact ih

/-- Claim C10: on every reachable manager state, sendMessage succeeds
exactly when getConnectionState reports connected: both reduce to the
data channel existing with an open readyState, because no reachable
state stores "connected" in the connectionState field that
getConnectionState falls back to. -/
theorem sendMessage_iff_connected (m : RTC.Manager) (msg : RTC.P2PMessage)
    (h : RTC.Reachable m) :
    ((RTC.sendMessage m msg).1 = true ↔ RTC.getConnectionState m = "connected") := by
  have hinv : m.connectionState ≠ "connected" := reachable_connState_ne h
  cases hdc : m.dataChannel with
  | none => simp [RTC.sendMessage, RTC.getConnectionState, hdc, hinv]
  | some dc =>
    by_cases hrs : dc.readyState = "open" <;>
      simp [RTC.sendMessage, RTC.getConnectionState, hdc, hrs, hinv]

/-- Witness for C10 at the freshly constructed manager. -/
theorem sendMessage_iff_connected_witness :
    ((RTC.sendMessage mgrNew msg0).1 = true ↔
      RTC.getConnectionState mgrNew = "connected") :=
  sendMessage_iff_connected mgrNew msg0 (RTC.Reachable.init "alice")
